import Mathlib

/-!
Single-node upgrade coordinator (`pkg/skuba/actions/node/upgrade/apply.go`).

A shallow embedding of `Apply` and `fillTargetWithNodeName`.

The Go function talks to a number of collaborators that live in other
packages (the deployment target, the cluster queries, the kubeadm
configuration helpers).  They are gathered in the structure `World`; the
embedding is parametric in it.  Every effect of a run is appended, in program
order, to a trace of `Event`s, so that statements about which calls were made,
and in which order, are statements about the returned trace.

Each read-side collaborator is called at most once per run and always at the
same program point, so its answer in a run is one value: it is a plain field
of `World`.  `target.Apply` is called up to four times, twice under the same
state name, so its answer is a function of the mutation calls issued before.
-/

namespace Skuba

set_option linter.dupNamespace false

/-- A non-nil Go `error` value.  A returned `error` is an `Option Error`,
with `none` for `nil`. -/
abbrev Error := String

/-- Modelled from the spec: the version type `*version.Version` of the
Kubernetes library, whose declaration is outside the source file: an ordered
semantic version value (major.minor.patch). -/
structure Version where
  major : Nat
  minor : Nat
  patch : Nat
deriving DecidableEq, Repr

/-- Modelled from the spec: the `String()` method of the version type, declared
outside the source file: it renders the canonical dotted form. -/
def Version.String (v : Version) : String :=
  toString v.major ++ "." ++ toString v.minor ++ "." ++ toString v.patch

/-- Modelled from the spec: the type `NodeVersionInfo`, declared outside the
source file (the spec's per-node snapshot with an API-server-relevant and a
kubelet-relevant version); these are the two fields `Apply` reads. -/
structure NodeVersionInfo where
  APIServerVersion : Version
  KubeletVersion : Version
deriving DecidableEq, Repr

/-- Modelled from the spec: the type `NodeVersionInfoUpdate`, declared outside
the source file: the current and the target (update) snapshot of a node. -/
structure NodeVersionInfoUpdate where
  Current : NodeVersionInfo
  Update : NodeVersionInfo
deriving DecidableEq, Repr

/-- The part of `deployments.Target` that `Apply` reads and writes: the
address of the machine and the node name filled in by
`fillTargetWithNodeName`. -/
structure Target where
  Target : String
  Nodename : String
deriving DecidableEq, Repr

/-- The first argument of `target.Apply`: `nil`, a
`deployments.KubernetesBaseOSConfiguration` or a
`deployments.UpgradeConfiguration`, with the fields that `Apply` sets. -/
inductive Payload where
  | nil
  | KubernetesBaseOSConfiguration (KubeadmVersion KubernetesVersion : String)
  | UpgradeConfiguration (KubeadmConfigContents : String)
deriving DecidableEq, Repr

/-- One call `target.Apply(data, state)`. -/
structure MutationCall where
  data : Payload
  state : String
deriving DecidableEq, Repr

/-- The `schema.GroupVersion` handed to the marshaller. -/
structure GroupVersion where
  Group : String
  Version : String
deriving DecidableEq, Repr

/-- The observable effects of a run: a line printed on standard output, or a
call to a collaborator. -/
inductive Event where
  | print (text : String)
  | DownloadFileContents (path : String)
  | GetNodeWithMachineId (machineId : String)
  | GetCurrentClusterVersion
  | UpdateStatus (nodename : String)
  | AllWorkerNodesTolerateVersion (v : Version)
  | GetClusterConfiguration
  | MarshalInitConfigurationToBytes (gv : GroupVersion)
  | Apply (call : MutationCall)
deriving DecidableEq, Repr

/-- The collaborators of `Apply`, none of which is defined in the source
file.  `Cfg` is the type of the kubeadm init configuration.

* `skubaVersion` is `skuba.CurrentVersion().String()`;
* `GetNodeWithMachineId` returns `node.ObjectMeta.Name` of the node found;
* `IsUpdated` and `IsFirstControlPlaneNodeToBeUpgraded` are the methods of
  `NodeVersionInfoUpdate`, `IsControlPlane` the method of `NodeVersionInfo`;
* the two configuration helpers update the configuration in place in Go and
  return the updated configuration here;
* `Apply t history call` is the result of `t.Apply(call.data, call.state)`
  when `history` lists the mutation calls issued earlier in the run. -/
structure World (Cfg : Type) where
  skubaVersion : String
  DownloadFileContents : Target → String → Except Error String
  GetNodeWithMachineId : String → Except Error String
  GetCurrentClusterVersion : Except Error Version
  LatestVersion : Version
  UpdateStatus : String → Except Error NodeVersionInfoUpdate
  IsUpdated : NodeVersionInfoUpdate → Bool
  IsFirstControlPlaneNodeToBeUpgraded : NodeVersionInfoUpdate → Bool
  IsControlPlane : NodeVersionInfo → Bool
  AllWorkerNodesTolerateVersion : Version → Except Error Bool
  GetClusterConfiguration : Except Error Cfg
  AddTargetInformationToInitConfigurationWithClusterVersion : Target → Cfg → Version → Cfg
  SetContainerImagesWithClusterVersion : Cfg → Version → Cfg
  MarshalInitConfigurationToBytes : Cfg → GroupVersion → Except Error String
  Apply : Target → List MutationCall → MutationCall → Option Error

/-- What a run of `Apply` leaves behind: the returned `error`, the target
(whose `Nodename` the run fills in) and the trace of effects. -/
structure Outcome where
  err : Option Error
  target : Target
  trace : List Event
deriving DecidableEq, Repr

/-- The mutation calls of a trace, in order. -/
def mutations (tr : List Event) : List MutationCall :=
  tr.filterMap fun e => match e with
    | Event.Apply c => some c
    | _ => none

/-- The versions the tolerance checker was asked about in a trace, in order. -/
def toleranceQueries (tr : List Event) : List Version :=
  tr.filterMap fun e => match e with
    | Event.AllWorkerNodesTolerateVersion v => some v
    | _ => none

/-- The collaborator calls of a trace, in order: the trace without the
progress lines. -/
def collaboratorCalls (tr : List Event) : List Event :=
  tr.filter fun e => match e with
    | Event.print _ => false
    | _ => true

/-- Go's `strings.TrimSuffix`: `s` without the trailing `suffix` if it has
one, `s` otherwise. -/
def TrimSuffix (s suffix : String) : String :=
  if suffix.data.isSuffixOf s.data then
    String.mk (s.data.take (s.data.length - suffix.data.length))
  else s

/-- The method `target.Apply(data, state)`, called when the trace so far is
`tr`: the world answers from the mutation calls issued so far. -/
def Target.Apply {Cfg : Type} (w : World Cfg) (target : Skuba.Target) (tr : List Event)
    (call : MutationCall) : Option Error :=
  w.Apply target (mutations tr) call

/-- The function `fillTargetWithNodeName` (apply.go lines 151-162). -/
def fillTargetWithNodeName {Cfg : Type} (w : World Cfg) (target : Target)
    (tr : List Event) : Option Error × Target × List Event :=
  let tr := tr ++ [Event.DownloadFileContents "/etc/machine-id"]
  match w.DownloadFileContents target "/etc/machine-id" with
  | .error err => (some err, target, tr)
  | .ok machineId =>
    let tr := tr ++ [Event.GetNodeWithMachineId (TrimSuffix machineId "\n")]
    match w.GetNodeWithMachineId (TrimSuffix machineId "\n") with
    | .error err => (some err, target, tr)
    | .ok nodeName => (none, { target with Nodename := nodeName }, tr)

/-- The closing lines of `Apply` (apply.go lines 146-148): the success line
and `return nil`. -/
def succeed (target : Target) (tr : List Event) : Outcome :=
  ⟨none, target, tr ++ [Event.print
    ("Node " ++ target.Nodename ++ " (" ++ target.Target ++ ") successfully upgraded\n")]⟩

/-- The first branch of `Apply` (apply.go lines 64-110), taken when the node is
the first control plane node to be upgraded. -/
def upgradeFirstControlPlane {Cfg : Type} (w : World Cfg) (target : Target)
    (nodeVersionInfoUpdate : NodeVersionInfoUpdate) (tr : List Event) : Outcome :=
  let tr := tr ++ [Event.AllWorkerNodesTolerateVersion nodeVersionInfoUpdate.Update.APIServerVersion]
  match w.AllWorkerNodesTolerateVersion nodeVersionInfoUpdate.Update.APIServerVersion with
  | .error err => ⟨some err, target, tr⟩
  | .ok upgradeable =>
  if upgradeable then
    let tr := tr ++ [Event.print "Fetching the cluster configuration...\n"]
    let tr := tr ++ [Event.GetClusterConfiguration]
    match w.GetClusterConfiguration with
    | .error err => ⟨some err, target, tr⟩
    | .ok initCfg =>
    let initCfg := w.AddTargetInformationToInitConfigurationWithClusterVersion target initCfg
      nodeVersionInfoUpdate.Update.APIServerVersion
    let initCfg := w.SetContainerImagesWithClusterVersion initCfg
      nodeVersionInfoUpdate.Update.APIServerVersion
    let tr := tr ++ [Event.MarshalInitConfigurationToBytes ⟨"kubeadm.k8s.io", "v1beta2"⟩]
    match w.MarshalInitConfigurationToBytes initCfg ⟨"kubeadm.k8s.io", "v1beta2"⟩ with
    | .error err => ⟨some err, target, tr⟩
    | .ok initCfgContents =>
    let tr := tr ++ [Event.print ("Performing node " ++ target.Nodename ++ " (" ++
      target.Target ++ ") upgrade, please wait...\n")]
    let call : MutationCall := ⟨Payload.KubernetesBaseOSConfiguration
        nodeVersionInfoUpdate.Update.APIServerVersion.String
        nodeVersionInfoUpdate.Current.APIServerVersion.String, "kubernetes.install-base-packages"⟩
    let err := Target.Apply w target tr call
    let tr := tr ++ [Event.Apply call]
    match err with
    | some err => ⟨some err, target, tr⟩
    | none =>
    let call : MutationCall := ⟨Payload.UpgradeConfiguration initCfgContents, "kubeadm.upgrade.apply"⟩
    let err := Target.Apply w target tr call
    let tr := tr ++ [Event.Apply call]
    match err with
    | some err => ⟨some err, target, tr⟩
    | none =>
    let call : MutationCall := ⟨Payload.KubernetesBaseOSConfiguration
        nodeVersionInfoUpdate.Update.APIServerVersion.String
        nodeVersionInfoUpdate.Update.APIServerVersion.String, "kubernetes.install-base-packages"⟩
    let err := Target.Apply w target tr call
    let tr := tr ++ [Event.Apply call]
    match err with
    | some err => ⟨some err, target, tr⟩
    | none =>
    let call : MutationCall := ⟨Payload.nil, "kubernetes.restart-services"⟩
    let err := Target.Apply w target tr call
    let tr := tr ++ [Event.Apply call]
    match err with
    | some err => ⟨some err, target, tr⟩
    | none => succeed target tr
  else succeed target tr

/-- The steps of the second branch once `upgradeable` is known (apply.go lines
120-143). -/
def upgradeNodeSteps {Cfg : Type} (w : World Cfg) (target : Target)
    (nodeVersionInfoUpdate : NodeVersionInfoUpdate) (upgradeable : Bool)
    (tr : List Event) : Outcome :=
  if upgradeable then
    let tr := tr ++ [Event.print ("Performing node " ++ target.Nodename ++ " (" ++
      target.Target ++ ") upgrade, please wait...\n")]
    let call : MutationCall := ⟨Payload.KubernetesBaseOSConfiguration
        nodeVersionInfoUpdate.Update.KubeletVersion.String
        nodeVersionInfoUpdate.Current.KubeletVersion.String, "kubernetes.install-base-packages"⟩
    let err := Target.Apply w target tr call
    let tr := tr ++ [Event.Apply call]
    match err with
    | some err => ⟨some err, target, tr⟩
    | none =>
    let call : MutationCall := ⟨Payload.nil, "kubeadm.upgrade.node"⟩
    let err := Target.Apply w target tr call
    let tr := tr ++ [Event.Apply call]
    match err with
    | some err => ⟨some err, target, tr⟩
    | none =>
    let call : MutationCall := ⟨Payload.KubernetesBaseOSConfiguration
        nodeVersionInfoUpdate.Update.KubeletVersion.String
        nodeVersionInfoUpdate.Update.KubeletVersion.String, "kubernetes.install-base-packages"⟩
    let err := Target.Apply w target tr call
    let tr := tr ++ [Event.Apply call]
    match err with
    | some err => ⟨some err, target, tr⟩
    | none =>
    let call : MutationCall := ⟨Payload.nil, "kubernetes.restart-services"⟩
    let err := Target.Apply w target tr call
    let tr := tr ++ [Event.Apply call]
    match err with
    | some err => ⟨some err, target, tr⟩
    | none => succeed target tr
  else succeed target tr

/-- The second branch of `Apply` (apply.go lines 112-143), taken when the node
is not the first control plane node to be upgraded: `upgradeable` starts as
`true` and is replaced by the tolerance answer on a control plane node. -/
def upgradeOtherNode {Cfg : Type} (w : World Cfg) (target : Target)
    (currentClusterVersion : Version) (nodeVersionInfoUpdate : NodeVersionInfoUpdate)
    (tr : List Event) : Outcome :=
  if w.IsControlPlane nodeVersionInfoUpdate.Current then
    let tr := tr ++ [Event.AllWorkerNodesTolerateVersion currentClusterVersion]
    match w.AllWorkerNodesTolerateVersion currentClusterVersion with
    | .error err => ⟨some err, target, tr⟩
    | .ok upgradeable => upgradeNodeSteps w target nodeVersionInfoUpdate upgradeable tr
  else upgradeNodeSteps w target nodeVersionInfoUpdate true tr

/-- The part of `Apply` after the update status is known (apply.go lines
57-148). -/
def upgradeWithStatus {Cfg : Type} (w : World Cfg) (target : Target)
    (currentClusterVersion : Version) (nodeVersionInfoUpdate : NodeVersionInfoUpdate)
    (tr : List Event) : Outcome :=
  if w.IsUpdated nodeVersionInfoUpdate then
    ⟨none, target, tr ++ [Event.print ("Node " ++ target.Nodename ++ " is up to date\n")]⟩
  else if w.IsFirstControlPlaneNodeToBeUpgraded nodeVersionInfoUpdate then
    upgradeFirstControlPlane w target nodeVersionInfoUpdate tr
  else
    upgradeOtherNode w target currentClusterVersion nodeVersionInfoUpdate tr

/-- The function `Apply` (apply.go lines 35-149). -/
def Apply {Cfg : Type} (w : World Cfg) (target : Target) : Outcome :=
  let tr := [Event.print (w.skubaVersion ++ "\n")]
  match fillTargetWithNodeName w target tr with
  | (some err, target, tr) => ⟨some err, target, tr⟩
  | (none, target, tr) =>
  let tr := tr ++ [Event.GetCurrentClusterVersion]
  match w.GetCurrentClusterVersion with
  | .error err => ⟨some err, target, tr⟩
  | .ok currentClusterVersion =>
  let currentVersion := currentClusterVersion.String
  let latestVersion := w.LatestVersion.String
  let tr := tr ++ [Event.print ("Current Kubernetes cluster version: " ++ currentVersion ++ "\n")]
  let tr := tr ++ [Event.print ("Latest Kubernetes version: " ++ latestVersion ++ "\n")]
  let tr := tr ++ [Event.print "\n"]
  let tr := tr ++ [Event.UpdateStatus target.Nodename]
  match w.UpdateStatus target.Nodename with
  | .error err => ⟨some err, target, tr⟩
  | .ok nodeVersionInfoUpdate =>
    upgradeWithStatus w target currentClusterVersion nodeVersionInfoUpdate tr

/-! ## Example worlds -/

/-- The update status every example world reports: the node is to go from
(api 1.2.0, kubelet 1.2.0) to (api 1.3.0, kubelet 1.3.0). -/
def exampleStatus : NodeVersionInfoUpdate :=
  ⟨⟨⟨1, 2, 0⟩, ⟨1, 2, 0⟩⟩, ⟨⟨1, 3, 0⟩, ⟨1, 3, 0⟩⟩⟩

/-- A world in which every collaborator succeeds: the machine id file holds
`"abc\n"`, the node found is `"node-1"`, the cluster runs 1.2.0 and the
status of the node is `exampleStatus`.  The arguments are the answers of
`IsFirstControlPlaneNodeToBeUpgraded`,
`IsControlPlane` and of the tolerance checker. -/
def exampleWorld (first controlPlane tolerant : Bool) : World String where
  skubaVersion := "skuba"
  DownloadFileContents := fun _ _ => .ok "abc\n"
  GetNodeWithMachineId := fun _ => .ok "node-1"
  GetCurrentClusterVersion := .ok ⟨1, 2, 0⟩
  LatestVersion := ⟨1, 3, 0⟩
  UpdateStatus := fun _ => .ok exampleStatus
  IsUpdated := fun u => decide (u.Current = u.Update)
  IsFirstControlPlaneNodeToBeUpgraded := fun _ => first
  IsControlPlane := fun _ => controlPlane
  AllWorkerNodesTolerateVersion := fun _ => .ok tolerant
  GetClusterConfiguration := .ok "cfg"
  AddTargetInformationToInitConfigurationWithClusterVersion := fun t c _ => c ++ "+" ++ t.Nodename
  SetContainerImagesWithClusterVersion := fun c v => c ++ "+" ++ v.String
  MarshalInitConfigurationToBytes := fun c _ => .ok c
  Apply := fun _ _ _ => none

/-- The target of the examples, before its node name is known. -/
def exampleTarget : Target := ⟨"10.0.0.1", ""⟩

/-! ## Vocabulary of the statements -/

/-- The run gets as far as the update status: the machine id is downloaded,
the node is found under the trimmed machine id, the current cluster version
is known and `UpdateStatus` answers `nviu` for the node. -/
def StatusKnown {Cfg : Type} (w : World Cfg) (target : Target) (machineId nodeName : String)
    (currentClusterVersion : Version) (nviu : NodeVersionInfoUpdate) : Prop :=
  w.DownloadFileContents target "/etc/machine-id" = .ok machineId ∧
  w.GetNodeWithMachineId (TrimSuffix machineId "\n") = .ok nodeName ∧
  w.GetCurrentClusterVersion = .ok currentClusterVersion ∧
  w.UpdateStatus nodeName = .ok nviu

/-- The trace of a run up to and including a successful `UpdateStatus`. -/
def statusTrace {Cfg : Type} (w : World Cfg) (machineId nodeName : String)
    (currentClusterVersion : Version) : List Event :=
  [Event.print (w.skubaVersion ++ "\n"),
   Event.DownloadFileContents "/etc/machine-id",
   Event.GetNodeWithMachineId (TrimSuffix machineId "\n"),
   Event.GetCurrentClusterVersion,
   Event.print ("Current Kubernetes cluster version: " ++ currentClusterVersion.String ++ "\n"),
   Event.print ("Latest Kubernetes version: " ++ w.LatestVersion.String ++ "\n"),
   Event.print "\n",
   Event.UpdateStatus nodeName]

/-- The four-step sequence the specification gives for the first control plane
node (its section 4.5): base packages at kubeadm = target API server version
and kubernetes = current API server version, `kubeadm.upgrade.apply` with the
marshalled init configuration, base packages with both at the target API
server version, restart of the services. -/
def specFirstControlPlaneSequence (nviu : NodeVersionInfoUpdate) (contents : String) :
    List MutationCall :=
  [⟨Payload.KubernetesBaseOSConfiguration nviu.Update.APIServerVersion.String
      nviu.Current.APIServerVersion.String, "kubernetes.install-base-packages"⟩,
   ⟨Payload.UpgradeConfiguration contents, "kubeadm.upgrade.apply"⟩,
   ⟨Payload.KubernetesBaseOSConfiguration nviu.Update.APIServerVersion.String
      nviu.Update.APIServerVersion.String, "kubernetes.install-base-packages"⟩,
   ⟨Payload.nil, "kubernetes.restart-services"⟩]

/-- The four-step sequence the specification gives for a subsequent control
plane node and for a worker (its section 4.5): base packages at kubeadm =
target kubelet version and kubernetes = current kubelet version,
`kubeadm.upgrade.node` without payload, base packages with both at the target
kubelet version, restart of the services. -/
def specNodeSequence (nviu : NodeVersionInfoUpdate) : List MutationCall :=
  [⟨Payload.KubernetesBaseOSConfiguration nviu.Update.KubeletVersion.String
      nviu.Current.KubeletVersion.String, "kubernetes.install-base-packages"⟩,
   ⟨Payload.nil, "kubeadm.upgrade.node"⟩,
   ⟨Payload.KubernetesBaseOSConfiguration nviu.Update.KubeletVersion.String
      nviu.Update.KubeletVersion.String, "kubernetes.install-base-packages"⟩,
   ⟨Payload.nil, "kubernetes.restart-services"⟩]

/-- The answer of the target to step `k` (counted from 0) of `steps`, asked
after the steps before it have been issued; `none` is success, also past the
end of the list. -/
def stepResult {Cfg : Type} (w : World Cfg) (target : Target) (steps : List MutationCall)
    (k : Nat) : Option Error :=
  match steps[k]? with
  | some call => w.Apply target (steps.take k) call
  | none => none

/-- The run enters the pipeline of the first control plane node: the node is
first, the workers tolerate its target API server version, the cluster
configuration is fetched and, once completed for the target, marshalled to
`contents`. -/
def EntersFirstControlPlanePipeline {Cfg : Type} (w : World Cfg) (target : Target)
    (nviu : NodeVersionInfoUpdate) (contents : String) : Prop :=
  w.IsFirstControlPlaneNodeToBeUpgraded nviu = true ∧
  w.AllWorkerNodesTolerateVersion nviu.Update.APIServerVersion = .ok true ∧
  ∃ initCfg, w.GetClusterConfiguration = .ok initCfg ∧
    w.MarshalInitConfigurationToBytes
      (w.SetContainerImagesWithClusterVersion
        (w.AddTargetInformationToInitConfigurationWithClusterVersion target initCfg
          nviu.Update.APIServerVersion)
        nviu.Update.APIServerVersion)
      ⟨"kubeadm.k8s.io", "v1beta2"⟩ = .ok contents

/-- The run enters the pipeline of the other nodes: the node is not first and
is either a worker or a control plane node for which the workers tolerate the
current cluster version. -/
def EntersNodePipeline {Cfg : Type} (w : World Cfg) (currentClusterVersion : Version)
    (nviu : NodeVersionInfoUpdate) : Prop :=
  w.IsFirstControlPlaneNodeToBeUpgraded nviu = false ∧
  (w.IsControlPlane nviu.Current = false ∨
    (w.IsControlPlane nviu.Current = true ∧
      w.AllWorkerNodesTolerateVersion currentClusterVersion = .ok true))

/-- The run is blocked: the node is on a control plane path and the tolerance
query of that path succeeds with answer `false`. -/
def Blocked {Cfg : Type} (w : World Cfg) (currentClusterVersion : Version)
    (nviu : NodeVersionInfoUpdate) : Prop :=
  (w.IsFirstControlPlaneNodeToBeUpgraded nviu = true ∧
    w.AllWorkerNodesTolerateVersion nviu.Update.APIServerVersion = .ok false) ∨
  (w.IsFirstControlPlaneNodeToBeUpgraded nviu = false ∧
    w.IsControlPlane nviu.Current = true ∧
    w.AllWorkerNodesTolerateVersion currentClusterVersion = .ok false)

/-- A collaborator called before the pipeline fails with `e`.  The index is the
list of collaborator calls the run is then expected to have made, in order and
without the progress lines: it ends with the call that failed. -/
inductive FailsBeforePipeline {Cfg : Type} (w : World Cfg) (target : Target) (e : Error) :
    List Event → Prop where
  | download :
      w.DownloadFileContents target "/etc/machine-id" = .error e →
      FailsBeforePipeline w target e [Event.DownloadFileContents "/etc/machine-id"]
  | lookup (machineId : String) :
      w.DownloadFileContents target "/etc/machine-id" = .ok machineId →
      w.GetNodeWithMachineId (TrimSuffix machineId "\n") = .error e →
      FailsBeforePipeline w target e
        [Event.DownloadFileContents "/etc/machine-id",
         Event.GetNodeWithMachineId (TrimSuffix machineId "\n")]
  | version (machineId nodeName : String) :
      w.DownloadFileContents target "/etc/machine-id" = .ok machineId →
      w.GetNodeWithMachineId (TrimSuffix machineId "\n") = .ok nodeName →
      w.GetCurrentClusterVersion = .error e →
      FailsBeforePipeline w target e
        [Event.DownloadFileContents "/etc/machine-id",
         Event.GetNodeWithMachineId (TrimSuffix machineId "\n"),
         Event.GetCurrentClusterVersion]
  | status (machineId nodeName : String) (ccv : Version) :
      w.DownloadFileContents target "/etc/machine-id" = .ok machineId →
      w.GetNodeWithMachineId (TrimSuffix machineId "\n") = .ok nodeName →
      w.GetCurrentClusterVersion = .ok ccv →
      w.UpdateStatus nodeName = .error e →
      FailsBeforePipeline w target e
        [Event.DownloadFileContents "/etc/machine-id",
         Event.GetNodeWithMachineId (TrimSuffix machineId "\n"),
         Event.GetCurrentClusterVersion,
         Event.UpdateStatus nodeName]
  | toleranceFirst (machineId nodeName : String) (ccv : Version) (nviu : NodeVersionInfoUpdate) :
      StatusKnown w target machineId nodeName ccv nviu →
      w.IsUpdated nviu = false →
      w.IsFirstControlPlaneNodeToBeUpgraded nviu = true →
      w.AllWorkerNodesTolerateVersion nviu.Update.APIServerVersion = .error e →
      FailsBeforePipeline w target e
        [Event.DownloadFileContents "/etc/machine-id",
         Event.GetNodeWithMachineId (TrimSuffix machineId "\n"),
         Event.GetCurrentClusterVersion,
         Event.UpdateStatus nodeName,
         Event.AllWorkerNodesTolerateVersion nviu.Update.APIServerVersion]
  | toleranceOther (machineId nodeName : String) (ccv : Version) (nviu : NodeVersionInfoUpdate) :
      StatusKnown w target machineId nodeName ccv nviu →
      w.IsUpdated nviu = false →
      w.IsFirstControlPlaneNodeToBeUpgraded nviu = false →
      w.IsControlPlane nviu.Current = true →
      w.AllWorkerNodesTolerateVersion ccv = .error e →
      FailsBeforePipeline w target e
        [Event.DownloadFileContents "/etc/machine-id",
         Event.GetNodeWithMachineId (TrimSuffix machineId "\n"),
         Event.GetCurrentClusterVersion,
         Event.UpdateStatus nodeName,
         Event.AllWorkerNodesTolerateVersion ccv]
  | fetch (machineId nodeName : String) (ccv : Version) (nviu : NodeVersionInfoUpdate) :
      StatusKnown w target machineId nodeName ccv nviu →
      w.IsUpdated nviu = false →
      w.IsFirstControlPlaneNodeToBeUpgraded nviu = true →
      w.AllWorkerNodesTolerateVersion nviu.Update.APIServerVersion = .ok true →
      w.GetClusterConfiguration = .error e →
      FailsBeforePipeline w target e
        [Event.DownloadFileContents "/etc/machine-id",
         Event.GetNodeWithMachineId (TrimSuffix machineId "\n"),
         Event.GetCurrentClusterVersion,
         Event.UpdateStatus nodeName,
         Event.AllWorkerNodesTolerateVersion nviu.Update.APIServerVersion,
         Event.GetClusterConfiguration]
  | marshal (machineId nodeName : String) (ccv : Version) (nviu : NodeVersionInfoUpdate)
      (initCfg : Cfg) :
      StatusKnown w target machineId nodeName ccv nviu →
      w.IsUpdated nviu = false →
      w.IsFirstControlPlaneNodeToBeUpgraded nviu = true →
      w.AllWorkerNodesTolerateVersion nviu.Update.APIServerVersion = .ok true →
      w.GetClusterConfiguration = .ok initCfg →
      w.MarshalInitConfigurationToBytes
        (w.SetContainerImagesWithClusterVersion
          (w.AddTargetInformationToInitConfigurationWithClusterVersion
            { target with Nodename := nodeName } initCfg nviu.Update.APIServerVersion)
          nviu.Update.APIServerVersion)
        ⟨"kubeadm.k8s.io", "v1beta2"⟩ = .error e →
      FailsBeforePipeline w target e
        [Event.DownloadFileContents "/etc/machine-id",
         Event.GetNodeWithMachineId (TrimSuffix machineId "\n"),
         Event.GetCurrentClusterVersion,
         Event.UpdateStatus nodeName,
         Event.AllWorkerNodesTolerateVersion nviu.Update.APIServerVersion,
         Event.GetClusterConfiguration,
         Event.MarshalInitConfigurationToBytes ⟨"kubeadm.k8s.io", "v1beta2"⟩]

/-- The example world with a target that refuses its second mutation call. -/
def secondStepFails (first controlPlane : Bool) : World String :=
  { exampleWorld first controlPlane true with
    Apply := fun _ history _ => if history.length = 1 then some "step failed" else none }

/-- The example world of a first control plane node, with a marshaller that
fails. -/
def marshalFails : World String :=
  { exampleWorld true true true with
    MarshalInitConfigurationToBytes := fun _ _ => .error "encoding failed" }

/-! ## Lemmas on traces -/

@[simp]
theorem mutations_nil : mutations [] = [] := rfl

@[simp]
theorem mutations_append (a b : List Event) :
    mutations (a ++ b) = mutations a ++ mutations b := by
  simp [mutations]

@[simp]
theorem mutations_cons (e : Event) (l : List Event) :
    mutations (e :: l) = (match e with | Event.Apply c => [c] | _ => []) ++ mutations l := by
  cases e <;> simp [mutations]

@[simp]
theorem toleranceQueries_nil : toleranceQueries [] = [] := rfl

@[simp]
theorem toleranceQueries_append (a b : List Event) :
    toleranceQueries (a ++ b) = toleranceQueries a ++ toleranceQueries b := by
  simp [toleranceQueries]

@[simp]
theorem toleranceQueries_cons (e : Event) (l : List Event) :
    toleranceQueries (e :: l) =
      (match e with | Event.AllWorkerNodesTolerateVersion v => [v] | _ => []) ++
        toleranceQueries l := by
  cases e <;> simp [toleranceQueries]

@[simp]
theorem collaboratorCalls_nil : collaboratorCalls [] = [] := rfl

@[simp]
theorem collaboratorCalls_append (a b : List Event) :
    collaboratorCalls (a ++ b) = collaboratorCalls a ++ collaboratorCalls b := by
  simp [collaboratorCalls]

@[simp]
theorem collaboratorCalls_cons (e : Event) (l : List Event) :
    collaboratorCalls (e :: l) =
      (match e with | Event.print _ => [] | _ => [e]) ++ collaboratorCalls l := by
  cases e <;> simp [collaboratorCalls]

@[simp]
theorem mutations_statusTrace {Cfg : Type} (w : World Cfg) (m n : String)
    (v : Version) : mutations (statusTrace w m n v) = [] := by
  simp [statusTrace]

@[simp]
theorem toleranceQueries_statusTrace {Cfg : Type} (w : World Cfg) (m n : String)
    (v : Version) : toleranceQueries (statusTrace w m n v) = [] := by
  simp [statusTrace]

/-- A prefix of a trace that holds no mutation call lies before every mutation
call of the trace. -/
theorem before_first_mutation (base : List Event) :
    ∀ (rest pre post : List Event) (call : MutationCall),
      base ++ rest = pre ++ Event.Apply call :: post → mutations base = [] →
      ∃ mid, pre = base ++ mid := by
  induction base with
  | nil => intro rest pre post call _ _; exact ⟨pre, rfl⟩
  | cons b bs ih =>
    intro rest pre post call h hm
    cases pre with
    | nil =>
      simp only [List.cons_append, List.nil_append, List.cons.injEq] at h
      rw [h.1] at hm
      simp at hm
    | cons p ps =>
      simp only [List.cons_append, List.cons.injEq] at h
      have hbs : mutations bs = [] := by
        have := hm
        simp only [mutations_cons, List.append_eq_nil] at this
        exact this.2
      obtain ⟨mid, hmid⟩ := ih rest ps post call h.2 hbs
      exact ⟨mid, by rw [h.1, hmid]; rfl⟩

/-- A trace without mutation calls does not split around one. -/
theorem no_mutation_split {tr pre post : List Event} {call : MutationCall}
    (h : tr = pre ++ Event.Apply call :: post) (hm : mutations tr = []) : False := by
  rw [h] at hm
  simp at hm

/-! ## Lemmas on the branches of `Apply` -/

theorem Apply_of_statusKnown {Cfg : Type} {w : World Cfg} {target : Target}
    {machineId nodeName : String} {ccv : Version} {nviu : NodeVersionInfoUpdate}
    (hs : StatusKnown w target machineId nodeName ccv nviu) :
    Apply w target = upgradeWithStatus w { target with Nodename := nodeName } ccv nviu
      (statusTrace w machineId nodeName ccv) := by
  obtain ⟨h1, h2, h3, h4⟩ := hs
  simp [Apply, fillTargetWithNodeName, h1, h2, h3, h4, statusTrace]

theorem upgradeNodeSteps_extends {Cfg : Type} (w : World Cfg) (target : Target)
    (nviu : NodeVersionInfoUpdate) (b : Bool) (tr : List Event) :
    ∃ rest, (upgradeNodeSteps w target nviu b tr).trace = tr ++ rest ∧
      toleranceQueries rest = [] ∧
      (b = false → mutations rest = []) := by
  unfold upgradeNodeSteps Target.Apply succeed
  cases b
  · exact ⟨_, rfl, by simp, by simp⟩
  · simp only [if_true]
    repeat' split
    all_goals exact ⟨_, by simp only [List.append_assoc]; rfl, by simp, by simp⟩

theorem upgradeFirstControlPlane_extends {Cfg : Type} (w : World Cfg) (target : Target)
    (nviu : NodeVersionInfoUpdate) (tr : List Event) :
    ∃ rest, (upgradeFirstControlPlane w target nviu tr).trace =
        tr ++ Event.AllWorkerNodesTolerateVersion nviu.Update.APIServerVersion :: rest ∧
      toleranceQueries rest = [] ∧
      (w.AllWorkerNodesTolerateVersion nviu.Update.APIServerVersion ≠ .ok true →
        mutations rest = []) := by
  unfold upgradeFirstControlPlane Target.Apply succeed
  dsimp only
  repeat' split
  all_goals exact
    ⟨_, by simp only [List.append_assoc, List.singleton_append]; rfl, by simp, by simp_all⟩

theorem upgradeOtherNode_controlPlane_extends {Cfg : Type} (w : World Cfg) (target : Target)
    (ccv : Version) (nviu : NodeVersionInfoUpdate) (tr : List Event)
    (hcp : w.IsControlPlane nviu.Current = true) :
    ∃ rest, (upgradeOtherNode w target ccv nviu tr).trace =
        tr ++ Event.AllWorkerNodesTolerateVersion ccv :: rest ∧
      toleranceQueries rest = [] ∧
      (w.AllWorkerNodesTolerateVersion ccv ≠ .ok true → mutations rest = []) := by
  unfold upgradeOtherNode
  simp only [hcp, if_true]
  split
  · exact ⟨[], by simp, by simp, by simp⟩
  · rename_i b hb
    obtain ⟨rest, h1, h2, h3⟩ := upgradeNodeSteps_extends w target nviu b
      (tr ++ [Event.AllWorkerNodesTolerateVersion ccv])
    refine ⟨rest, by simp [h1], h2, ?_⟩
    intro hne
    apply h3
    cases b
    · rfl
    · exact absurd hb hne

theorem upgradeOtherNode_worker {Cfg : Type} (w : World Cfg) (target : Target)
    (ccv : Version) (nviu : NodeVersionInfoUpdate) (tr : List Event)
    (hcp : w.IsControlPlane nviu.Current = false) :
    upgradeOtherNode w target ccv nviu tr = upgradeNodeSteps w target nviu true tr := by
  simp [upgradeOtherNode, hcp]

theorem upgradeOtherNode_tolerant {Cfg : Type} (w : World Cfg) (target : Target)
    (ccv : Version) (nviu : NodeVersionInfoUpdate) (tr : List Event)
    (hcp : w.IsControlPlane nviu.Current = true)
    (htol : w.AllWorkerNodesTolerateVersion ccv = .ok true) :
    upgradeOtherNode w target ccv nviu tr =
      upgradeNodeSteps w target nviu true (tr ++ [Event.AllWorkerNodesTolerateVersion ccv]) := by
  simp [upgradeOtherNode, hcp, htol]

/-- The node pipeline, entered with no mutation issued yet: it stops at the
first failing step, or runs its four steps. -/
theorem upgradeNodeSteps_run {Cfg : Type} (w : World Cfg) (target : Target)
    (nviu : NodeVersionInfoUpdate) (tr : List Event) (hm : mutations tr = []) :
    ((∀ j, j < 4 → stepResult w target (specNodeSequence nviu) j = none) →
      (upgradeNodeSteps w target nviu true tr).err = none ∧
      mutations (upgradeNodeSteps w target nviu true tr).trace = specNodeSequence nviu) ∧
    (∀ (k : Nat) (e : Error), 1 ≤ k → k ≤ 4 →
      (∀ j, j < k - 1 → stepResult w target (specNodeSequence nviu) j = none) →
      stepResult w target (specNodeSequence nviu) (k - 1) = some e →
      (upgradeNodeSteps w target nviu true tr).err = some e ∧
      mutations (upgradeNodeSteps w target nviu true tr).trace =
        (specNodeSequence nviu).take k) := by
  constructor
  · intro hsteps
    have h0 := hsteps 0 (by decide)
    have h1 := hsteps 1 (by decide)
    have h2 := hsteps 2 (by decide)
    have h3 := hsteps 3 (by decide)
    simp [stepResult, specNodeSequence] at h0 h1 h2 h3
    simp [upgradeNodeSteps, Target.Apply, succeed, hm, h0, h1, h2, h3, specNodeSequence]
  · intro k e hk1 hk4 hprev hfail
    have h0 := hprev 0
    have h1 := hprev 1
    have h2 := hprev 2
    interval_cases k <;>
      simp [stepResult, specNodeSequence] at h0 h1 h2 hfail <;>
      simp [upgradeNodeSteps, Target.Apply, succeed, hm, h0, h1, h2, hfail, specNodeSequence]

/-- The pipeline of the first control plane node, entered with no mutation
issued yet: it stops at the first failing step, or runs its four steps. -/
theorem upgradeFirstControlPlane_run {Cfg : Type} (w : World Cfg) (target : Target)
    (nviu : NodeVersionInfoUpdate) (contents : String) (tr : List Event)
    (hm : mutations tr = [])
    (hp : EntersFirstControlPlanePipeline w target nviu contents) :
    ((∀ j, j < 4 → stepResult w target (specFirstControlPlaneSequence nviu contents) j = none) →
      (upgradeFirstControlPlane w target nviu tr).err = none ∧
      mutations (upgradeFirstControlPlane w target nviu tr).trace =
        specFirstControlPlaneSequence nviu contents) ∧
    (∀ (k : Nat) (e : Error), 1 ≤ k → k ≤ 4 →
      (∀ j, j < k - 1 →
        stepResult w target (specFirstControlPlaneSequence nviu contents) j = none) →
      stepResult w target (specFirstControlPlaneSequence nviu contents) (k - 1) = some e →
      (upgradeFirstControlPlane w target nviu tr).err = some e ∧
      mutations (upgradeFirstControlPlane w target nviu tr).trace =
        (specFirstControlPlaneSequence nviu contents).take k) := by
  obtain ⟨_, htol, initCfg, hcfg, hmar⟩ := hp
  constructor
  · intro hsteps
    have h0 := hsteps 0 (by decide)
    have h1 := hsteps 1 (by decide)
    have h2 := hsteps 2 (by decide)
    have h3 := hsteps 3 (by decide)
    simp [stepResult, specFirstControlPlaneSequence] at h0 h1 h2 h3
    simp [upgradeFirstControlPlane, Target.Apply, succeed, hm, htol, hcfg, hmar, h0, h1, h2, h3,
      specFirstControlPlaneSequence]
  · intro k e hk1 hk4 hprev hfail
    have h0 := hprev 0
    have h1 := hprev 1
    have h2 := hprev 2
    interval_cases k <;>
      simp [stepResult, specFirstControlPlaneSequence] at h0 h1 h2 hfail <;>
      simp [upgradeFirstControlPlane, Target.Apply, succeed, hm, htol, hcfg, hmar, h0, h1, h2,
        hfail, specFirstControlPlaneSequence]

/-- A blocked run ends right after its tolerance query, with the success line
and no error. -/
theorem upgradeWithStatus_blocked {Cfg : Type} (w : World Cfg) (target : Target)
    (ccv : Version) (nviu : NodeVersionInfoUpdate) (tr : List Event)
    (hup : w.IsUpdated nviu = false) (hb : Blocked w ccv nviu) :
    ∃ v, upgradeWithStatus w target ccv nviu tr =
      succeed target (tr ++ [Event.AllWorkerNodesTolerateVersion v]) := by
  rcases hb with ⟨hfirst, htol⟩ | ⟨hfirst, hcp, htol⟩
  · exact ⟨nviu.Update.APIServerVersion, by
      simp [upgradeWithStatus, hup, hfirst, upgradeFirstControlPlane, htol]⟩
  · exact ⟨ccv, by
      simp [upgradeWithStatus, hup, hfirst, upgradeOtherNode, hcp, htol, upgradeNodeSteps]⟩

/-- The node pipeline is entered with no mutation issued yet. -/
theorem upgradeWithStatus_node {Cfg : Type} (w : World Cfg) (target : Target)
    (ccv : Version) (nviu : NodeVersionInfoUpdate) (tr : List Event)
    (hm : mutations tr = [])
    (hup : w.IsUpdated nviu = false) (hp : EntersNodePipeline w ccv nviu) :
    ∃ tr1, mutations tr1 = [] ∧
      upgradeWithStatus w target ccv nviu tr = upgradeNodeSteps w target nviu true tr1 := by
  obtain ⟨hfirst, hcp | ⟨hcp, htol⟩⟩ := hp
  · exact ⟨tr, hm, by simp [upgradeWithStatus, hup, hfirst, upgradeOtherNode_worker, hcp]⟩
  · exact ⟨tr ++ [Event.AllWorkerNodesTolerateVersion ccv], by simp [hm], by
      simp [upgradeWithStatus, hup, hfirst, upgradeOtherNode_tolerant, hcp, htol]⟩

/-- The pipeline of the first control plane node is entered when the node is
first. -/
theorem upgradeWithStatus_first {Cfg : Type} (w : World Cfg) (target : Target)
    (ccv : Version) (nviu : NodeVersionInfoUpdate) (tr : List Event)
    (hup : w.IsUpdated nviu = false)
    (hfirst : w.IsFirstControlPlaneNodeToBeUpgraded nviu = true) :
    upgradeWithStatus w target ccv nviu tr = upgradeFirstControlPlane w target nviu tr := by
  simp [upgradeWithStatus, hup, hfirst]

/-! ## The claims -/

/-- C1: when identity resolution, the current cluster version lookup and
`UpdateStatus` succeed and `IsUpdated()` is true, `Apply` returns nil, issues
no mutation call and makes no tolerance query, whatever the role of the node,
the answer of `IsFirstControlPlaneNodeToBeUpgraded()` and the tolerance
checker are. -/
theorem Apply_up_to_date {Cfg : Type} (w : World Cfg) (target : Target)
    (machineId nodeName : String) (ccv : Version) (nviu : NodeVersionInfoUpdate)
    (hs : StatusKnown w target machineId nodeName ccv nviu)
    (hup : w.IsUpdated nviu = true) :
    (Apply w target).err = none ∧
    mutations (Apply w target).trace = [] ∧
    toleranceQueries (Apply w target).trace = [] := by
  rw [Apply_of_statusKnown hs]
  simp [upgradeWithStatus, hup]

/-- Witness of C1: an up-to-date first control plane node with an intolerant
worker fleet. -/
theorem Apply_up_to_date_witness :
    (Apply { exampleWorld true true false with IsUpdated := fun _ => true } exampleTarget).err
        = none ∧
    mutations (Apply { exampleWorld true true false with IsUpdated := fun _ => true }
      exampleTarget).trace = [] ∧
    toleranceQueries (Apply { exampleWorld true true false with IsUpdated := fun _ => true }
      exampleTarget).trace = [] :=
  Apply_up_to_date { exampleWorld true true false with IsUpdated := fun _ => true }
    exampleTarget "abc\n" "node-1" ⟨1, 2, 0⟩ exampleStatus
    ⟨rfl, rfl, rfl, rfl⟩ rfl

/-- C2: for a node that is not up to date and on a control plane path (first,
or not first and control plane), if the tolerance query of that path succeeds
with answer false, `Apply` issues no mutation call, neither fetches nor
marshals the cluster configuration, and returns nil. -/
theorem Apply_blocked {Cfg : Type} (w : World Cfg) (target : Target)
    (machineId nodeName : String) (ccv : Version) (nviu : NodeVersionInfoUpdate)
    (hs : StatusKnown w target machineId nodeName ccv nviu)
    (hup : w.IsUpdated nviu = false)
    (hb : Blocked w ccv nviu) :
    (Apply w target).err = none ∧
    mutations (Apply w target).trace = [] ∧
    Event.GetClusterConfiguration ∉ (Apply w target).trace ∧
    ∀ gv, Event.MarshalInitConfigurationToBytes gv ∉ (Apply w target).trace := by
  rw [Apply_of_statusKnown hs]
  obtain ⟨v, hv⟩ := upgradeWithStatus_blocked w { target with Nodename := nodeName } ccv nviu
    (statusTrace w machineId nodeName ccv) hup hb
  rw [hv]
  simp [succeed, statusTrace]

/-- Witness of C2: the first control plane node of the example, with an
intolerant worker fleet. -/
theorem Apply_blocked_witness :
    Blocked (exampleWorld true true false) ⟨1, 2, 0⟩
      exampleStatus ∧
    (Apply (exampleWorld true true false) exampleTarget).err = none ∧
    mutations (Apply (exampleWorld true true false) exampleTarget).trace = [] ∧
    Event.GetClusterConfiguration ∉ (Apply (exampleWorld true true false) exampleTarget).trace ∧
    ∀ gv, Event.MarshalInitConfigurationToBytes gv ∉
      (Apply (exampleWorld true true false) exampleTarget).trace :=
  ⟨Or.inl ⟨rfl, rfl⟩,
   Apply_blocked (exampleWorld true true false) exampleTarget "abc\n" "node-1" ⟨1, 2, 0⟩
    exampleStatus ⟨rfl, rfl, rfl, rfl⟩ (by decide)
    (Or.inl ⟨rfl, rfl⟩)⟩

/-- C3: for a node that is not up to date and first, with tolerance true and
every collaborator and mutation step succeeding, `Apply` returns nil after
exactly four mutation calls, in this order: `kubernetes.install-base-packages`
with kubeadm at the target and kubernetes at the current API server version,
`kubeadm.upgrade.apply` with the marshalled init configuration,
`kubernetes.install-base-packages` with both at the target API server version,
`kubernetes.restart-services` without payload. -/
theorem Apply_first_control_plane {Cfg : Type} (w : World Cfg) (target : Target)
    (machineId nodeName : String) (ccv : Version) (nviu : NodeVersionInfoUpdate)
    (contents : String)
    (hs : StatusKnown w target machineId nodeName ccv nviu)
    (hup : w.IsUpdated nviu = false)
    (hp : EntersFirstControlPlanePipeline w { target with Nodename := nodeName } nviu contents)
    (hsteps : ∀ j, j < 4 → stepResult w { target with Nodename := nodeName }
      (specFirstControlPlaneSequence nviu contents) j = none) :
    (Apply w target).err = none ∧
    mutations (Apply w target).trace =
      [⟨Payload.KubernetesBaseOSConfiguration nviu.Update.APIServerVersion.String
          nviu.Current.APIServerVersion.String, "kubernetes.install-base-packages"⟩,
       ⟨Payload.UpgradeConfiguration contents, "kubeadm.upgrade.apply"⟩,
       ⟨Payload.KubernetesBaseOSConfiguration nviu.Update.APIServerVersion.String
          nviu.Update.APIServerVersion.String, "kubernetes.install-base-packages"⟩,
       ⟨Payload.nil, "kubernetes.restart-services"⟩] := by
  rw [Apply_of_statusKnown hs, upgradeWithStatus_first _ _ _ _ _ hup hp.1]
  exact (upgradeFirstControlPlane_run w _ nviu contents _ (by simp) hp).1 hsteps

/-- Witness of C3: current = (api 1.2.0, kubelet 1.2.0), target = (api 1.3.0,
kubelet 1.3.0), first control plane node, tolerant workers. -/
theorem Apply_first_control_plane_witness :
    (Apply (exampleWorld true true true) exampleTarget).err = none ∧
    mutations (Apply (exampleWorld true true true) exampleTarget).trace =
      [⟨Payload.KubernetesBaseOSConfiguration "1.3.0" "1.2.0", "kubernetes.install-base-packages"⟩,
       ⟨Payload.UpgradeConfiguration "cfg+node-1+1.3.0", "kubeadm.upgrade.apply"⟩,
       ⟨Payload.KubernetesBaseOSConfiguration "1.3.0" "1.3.0", "kubernetes.install-base-packages"⟩,
       ⟨Payload.nil, "kubernetes.restart-services"⟩] :=
  Apply_first_control_plane (exampleWorld true true true) exampleTarget "abc\n" "node-1"
    ⟨1, 2, 0⟩ exampleStatus "cfg+node-1+1.3.0"
    ⟨rfl, rfl, rfl, rfl⟩ rfl ⟨rfl, rfl, "cfg", rfl, rfl⟩ (fun j _ => by
      simp only [stepResult, exampleWorld]; split <;> rfl)

/-- C4: for a node that is not up to date, not first, and permitted to upgrade
(a worker, or a control plane node whose tolerance query answered true), with
every mutation step succeeding, `Apply` returns nil after exactly four
mutation calls, in this order: `kubernetes.install-base-packages` with kubeadm
at the target and kubernetes at the current kubelet version,
`kubeadm.upgrade.node` without payload, `kubernetes.install-base-packages`
with both at the target kubelet version, `kubernetes.restart-services` without
payload.  Any other such run, on a node of either role, whose current and
target kubelet versions are the same, issues the same sequence of calls. -/
theorem Apply_node_upgrade {Cfg : Type} (w : World Cfg) (target : Target)
    (machineId nodeName : String) (ccv : Version) (nviu : NodeVersionInfoUpdate)
    (hs : StatusKnown w target machineId nodeName ccv nviu)
    (hup : w.IsUpdated nviu = false)
    (hp : EntersNodePipeline w ccv nviu)
    (hsteps : ∀ j, j < 4 → stepResult w { target with Nodename := nodeName }
      (specNodeSequence nviu) j = none) :
    (Apply w target).err = none ∧
    mutations (Apply w target).trace =
      [⟨Payload.KubernetesBaseOSConfiguration nviu.Update.KubeletVersion.String
          nviu.Current.KubeletVersion.String, "kubernetes.install-base-packages"⟩,
       ⟨Payload.nil, "kubeadm.upgrade.node"⟩,
       ⟨Payload.KubernetesBaseOSConfiguration nviu.Update.KubeletVersion.String
          nviu.Update.KubeletVersion.String, "kubernetes.install-base-packages"⟩,
       ⟨Payload.nil, "kubernetes.restart-services"⟩] ∧
    ∀ {Cfg2 : Type} (w2 : World Cfg2) (target2 : Target) (machineId2 nodeName2 : String)
      (ccv2 : Version) (nviu2 : NodeVersionInfoUpdate),
      StatusKnown w2 target2 machineId2 nodeName2 ccv2 nviu2 →
      w2.IsUpdated nviu2 = false →
      EntersNodePipeline w2 ccv2 nviu2 →
      (∀ j, j < 4 → stepResult w2 { target2 with Nodename := nodeName2 }
        (specNodeSequence nviu2) j = none) →
      nviu2.Current.KubeletVersion = nviu.Current.KubeletVersion →
      nviu2.Update.KubeletVersion = nviu.Update.KubeletVersion →
      mutations (Apply w2 target2).trace = mutations (Apply w target).trace := by
  have key : ∀ {C : Type} (w : World C) (target : Target) (machineId nodeName : String)
      (ccv : Version) (nviu : NodeVersionInfoUpdate),
      StatusKnown w target machineId nodeName ccv nviu → w.IsUpdated nviu = false →
      EntersNodePipeline w ccv nviu →
      (∀ j, j < 4 → stepResult w { target with Nodename := nodeName }
        (specNodeSequence nviu) j = none) →
      (Apply w target).err = none ∧
        mutations (Apply w target).trace = specNodeSequence nviu := by
    intro C w target machineId nodeName ccv nviu hs hup hp hsteps
    rw [Apply_of_statusKnown hs]
    obtain ⟨tr1, hm1, heq⟩ := upgradeWithStatus_node w { target with Nodename := nodeName } ccv
      nviu (statusTrace w machineId nodeName ccv) (by simp) hup hp
    rw [heq]
    exact (upgradeNodeSteps_run w _ nviu tr1 hm1).1 hsteps
  have h1 := key w target machineId nodeName ccv nviu hs hup hp hsteps
  refine ⟨h1.1, h1.2, ?_⟩
  intro Cfg2 w2 target2 machineId2 nodeName2 ccv2 nviu2 hs2 hup2 hp2 hsteps2 hc hu
  rw [h1.2, (key w2 target2 machineId2 nodeName2 ccv2 nviu2 hs2 hup2 hp2 hsteps2).2]
  simp [specNodeSequence, hc, hu]

/-- Witness of C4: a subsequent control plane node with tolerant workers. -/
theorem Apply_node_upgrade_witness :
    EntersNodePipeline (exampleWorld false true true) ⟨1, 2, 0⟩
      exampleStatus ∧
    (Apply (exampleWorld false true true) exampleTarget).err = none ∧
    mutations (Apply (exampleWorld false true true) exampleTarget).trace =
      [⟨Payload.KubernetesBaseOSConfiguration "1.3.0" "1.2.0", "kubernetes.install-base-packages"⟩,
       ⟨Payload.nil, "kubeadm.upgrade.node"⟩,
       ⟨Payload.KubernetesBaseOSConfiguration "1.3.0" "1.3.0", "kubernetes.install-base-packages"⟩,
       ⟨Payload.nil, "kubernetes.restart-services"⟩] :=
  have h := Apply_node_upgrade (exampleWorld false true true) exampleTarget "abc\n" "node-1"
    ⟨1, 2, 0⟩ exampleStatus
    ⟨rfl, rfl, rfl, rfl⟩ rfl ⟨rfl, Or.inr ⟨rfl, rfl⟩⟩ (fun j _ => by
      simp only [stepResult, exampleWorld]; split <;> rfl)
  ⟨⟨rfl, Or.inr ⟨rfl, rfl⟩⟩, h.1, h.2.1⟩

/-- C5: on either mutation path, for every k from 1 to 4, if the steps before
step k succeed and step k fails with `e`, `Apply` returns exactly `e` after
exactly k mutation calls, the first k steps of the path: no later step, no
retry and no compensating call is issued. -/
theorem Apply_fail_fast {Cfg : Type} (w : World Cfg) (target : Target)
    (machineId nodeName : String) (ccv : Version) (nviu : NodeVersionInfoUpdate)
    (steps : List MutationCall) (k : Nat) (e : Error)
    (hs : StatusKnown w target machineId nodeName ccv nviu)
    (hup : w.IsUpdated nviu = false)
    (hpath : (∃ contents,
        EntersFirstControlPlanePipeline w { target with Nodename := nodeName } nviu contents ∧
        steps = specFirstControlPlaneSequence nviu contents) ∨
      (EntersNodePipeline w ccv nviu ∧ steps = specNodeSequence nviu))
    (hk1 : 1 ≤ k) (hk4 : k ≤ 4)
    (hprev : ∀ j, j < k - 1 → stepResult w { target with Nodename := nodeName } steps j = none)
    (hfail : stepResult w { target with Nodename := nodeName } steps (k - 1) = some e) :
    (Apply w target).err = some e ∧
    mutations (Apply w target).trace = steps.take k ∧
    (mutations (Apply w target).trace).length = k := by
  have hlen : steps.length = 4 := by
    rcases hpath with ⟨contents, _, rfl⟩ | ⟨_, rfl⟩ <;> rfl
  have main : (Apply w target).err = some e ∧
      mutations (Apply w target).trace = steps.take k := by
    rw [Apply_of_statusKnown hs]
    rcases hpath with ⟨contents, hp, rfl⟩ | ⟨hp, rfl⟩
    · rw [upgradeWithStatus_first _ _ _ _ _ hup hp.1]
      exact (upgradeFirstControlPlane_run w _ nviu contents _ (by simp) hp).2 k e hk1 hk4
        hprev hfail
    · obtain ⟨tr1, hm1, heq⟩ := upgradeWithStatus_node w { target with Nodename := nodeName }
        ccv nviu (statusTrace w machineId nodeName ccv) (by simp) hup hp
      rw [heq]
      exact (upgradeNodeSteps_run w _ nviu tr1 hm1).2 k e hk1 hk4 hprev hfail
  refine ⟨main.1, main.2, ?_⟩
  rw [main.2, List.length_take, hlen]
  omega

/-- Witness of C5, k = 2: a subsequent control plane node whose second step,
`kubeadm.upgrade.node`, fails. -/
theorem Apply_fail_fast_witness :
    (Apply (secondStepFails false true) exampleTarget).err = some "step failed" ∧
    mutations (Apply (secondStepFails false true) exampleTarget).trace =
      [⟨Payload.KubernetesBaseOSConfiguration "1.3.0" "1.2.0", "kubernetes.install-base-packages"⟩,
       ⟨Payload.nil, "kubeadm.upgrade.node"⟩] ∧
    (mutations (Apply (secondStepFails false true) exampleTarget).trace).length = 2 :=
  Apply_fail_fast (secondStepFails false true) exampleTarget "abc\n" "node-1" ⟨1, 2, 0⟩
    exampleStatus (specNodeSequence exampleStatus) 2 "step failed"
    ⟨rfl, rfl, rfl, rfl⟩ rfl (Or.inr ⟨⟨rfl, Or.inr ⟨rfl, rfl⟩⟩, rfl⟩) (by decide) (by decide)
    (fun j hj => by
      have hj0 : j = 0 := by omega
      subst hj0
      rfl)
    rfl

/-- C6: in a run on a control plane node (first or subsequent), every mutation
call is preceded, in the same run, by a tolerance query that succeeded with
answer true. -/
theorem Apply_safety_gate {Cfg : Type} (w : World Cfg) (target : Target)
    (pre post : List Event) (call : MutationCall)
    (htrace : (Apply w target).trace = pre ++ Event.Apply call :: post)
    (hcp : ∀ machineId nodeName ccv nviu,
      StatusKnown w target machineId nodeName ccv nviu →
      w.IsFirstControlPlaneNodeToBeUpgraded nviu = true ∨
        w.IsControlPlane nviu.Current = true) :
    ∃ v, Event.AllWorkerNodesTolerateVersion v ∈ pre ∧
      w.AllWorkerNodesTolerateVersion v = .ok true := by
  cases h1 : w.DownloadFileContents target "/etc/machine-id" with
  | error e =>
    exact (no_mutation_split htrace (by simp [Apply, fillTargetWithNodeName, h1])).elim
  | ok machineId =>
  cases h2 : w.GetNodeWithMachineId (TrimSuffix machineId "\n") with
  | error e =>
    exact (no_mutation_split htrace (by simp [Apply, fillTargetWithNodeName, h1, h2])).elim
  | ok nodeName =>
  cases h3 : w.GetCurrentClusterVersion with
  | error e =>
    exact (no_mutation_split htrace (by simp [Apply, fillTargetWithNodeName, h1, h2, h3])).elim
  | ok ccv =>
  cases h4 : w.UpdateStatus nodeName with
  | error e =>
    exact (no_mutation_split htrace
      (by simp [Apply, fillTargetWithNodeName, h1, h2, h3, h4])).elim
  | ok nviu =>
  have hs : StatusKnown w target machineId nodeName ccv nviu := ⟨h1, h2, h3, h4⟩
  rw [Apply_of_statusKnown hs] at htrace
  cases hup : w.IsUpdated nviu with
  | true => exact (no_mutation_split htrace (by simp [upgradeWithStatus, hup])).elim
  | false =>
  have gate : ∀ (v : Version) (rest : List Event),
      (upgradeWithStatus w { target with Nodename := nodeName } ccv nviu
        (statusTrace w machineId nodeName ccv)).trace =
        statusTrace w machineId nodeName ccv ++ Event.AllWorkerNodesTolerateVersion v :: rest →
      (w.AllWorkerNodesTolerateVersion v ≠ .ok true → mutations rest = []) →
      Event.AllWorkerNodesTolerateVersion v ∈ pre ∧
        w.AllWorkerNodesTolerateVersion v = .ok true := by
    intro v rest hr hmut
    by_cases htol : w.AllWorkerNodesTolerateVersion v = .ok true
    · obtain ⟨mid, hmid⟩ := before_first_mutation
        (statusTrace w machineId nodeName ccv ++ [Event.AllWorkerNodesTolerateVersion v])
        rest pre post call (by rw [← htrace, hr]; simp) (by simp)
      exact ⟨by rw [hmid]; simp, htol⟩
    · exact (no_mutation_split htrace (by rw [hr]; simp [hmut htol])).elim
  cases hfirst : w.IsFirstControlPlaneNodeToBeUpgraded nviu with
  | true =>
    obtain ⟨rest, hr, _, hmut⟩ := upgradeFirstControlPlane_extends w
      { target with Nodename := nodeName } nviu (statusTrace w machineId nodeName ccv)
    rw [← upgradeWithStatus_first w _ ccv nviu _ hup hfirst] at hr
    exact ⟨_, gate _ rest hr hmut⟩
  | false =>
    have hrole : w.IsControlPlane nviu.Current = true := by
      rcases hcp machineId nodeName ccv nviu hs with h | h
      · rw [hfirst] at h; cases h
      · exact h
    obtain ⟨rest, hr, _, hmut⟩ := upgradeOtherNode_controlPlane_extends w
      { target with Nodename := nodeName } ccv nviu (statusTrace w machineId nodeName ccv) hrole
    have heq : upgradeWithStatus w { target with Nodename := nodeName } ccv nviu
        (statusTrace w machineId nodeName ccv) =
        upgradeOtherNode w { target with Nodename := nodeName } ccv nviu
          (statusTrace w machineId nodeName ccv) := by
      simp [upgradeWithStatus, hup, hfirst]
    rw [← heq] at hr
    exact ⟨_, gate _ rest hr hmut⟩

/-- Witness of C6: the first mutation call of the first control plane node of
the example comes after the tolerance query for 1.3.0, answered true. -/
theorem Apply_safety_gate_witness :
    ∃ v, Event.AllWorkerNodesTolerateVersion v ∈
        (Apply (exampleWorld true true true) exampleTarget).trace.take 13 ∧
      (exampleWorld true true true).AllWorkerNodesTolerateVersion v = .ok true :=
  Apply_safety_gate (exampleWorld true true true) exampleTarget
    ((Apply (exampleWorld true true true) exampleTarget).trace.take 13)
    ((Apply (exampleWorld true true true) exampleTarget).trace.drop 14)
    ⟨Payload.KubernetesBaseOSConfiguration "1.3.0" "1.2.0", "kubernetes.install-base-packages"⟩
    (by decide) (fun _ _ _ _ _ => Or.inl rfl)

/-- Counterexample to C7: the blocked run of the example (tolerance false, no
mutation call) and its run that succeeds after four mutation calls return the
same result, nil. -/
theorem blocked_result_same_as_success :
    (exampleWorld true true false).AllWorkerNodesTolerateVersion ⟨1, 3, 0⟩ = .ok false ∧
    toleranceQueries (Apply (exampleWorld true true false) exampleTarget).trace = [⟨1, 3, 0⟩] ∧
    mutations (Apply (exampleWorld true true false) exampleTarget).trace = [] ∧
    (mutations (Apply (exampleWorld true true true) exampleTarget).trace).length = 4 ∧
    (Apply (exampleWorld true true true) exampleTarget).err = none ∧
    (Apply (exampleWorld true true false) exampleTarget).err =
      (Apply (exampleWorld true true true) exampleTarget).err :=
  ⟨rfl, by decide, by decide, by decide, by decide, by decide⟩

/-- C7, amended: a blocked run (tolerance false, no mutation call) and a run
that succeeds after issuing mutation calls differ in the mutation calls they
issue but return the same result, nil; that result differs from every failure
result, which is a non-nil error. -/
theorem blocked_and_success_return_nil {Cfg Cfg2 : Type} (w : World Cfg) (target : Target)
    (machineId nodeName : String) (ccv : Version) (nviu : NodeVersionInfoUpdate)
    (w2 : World Cfg2) (target2 : Target)
    (hs : StatusKnown w target machineId nodeName ccv nviu)
    (hup : w.IsUpdated nviu = false)
    (hb : Blocked w ccv nviu)
    (hsucc : (Apply w2 target2).err = none)
    (hmut : mutations (Apply w2 target2).trace ≠ []) :
    mutations (Apply w target).trace ≠ mutations (Apply w2 target2).trace ∧
    (Apply w target).err = (Apply w2 target2).err ∧
    ∀ e : Error, (Apply w target).err ≠ some e ∧ (Apply w2 target2).err ≠ some e := by
  have hblocked : (Apply w target).err = none ∧ mutations (Apply w target).trace = [] := by
    rw [Apply_of_statusKnown hs]
    obtain ⟨v, hv⟩ := upgradeWithStatus_blocked w { target with Nodename := nodeName } ccv nviu
      (statusTrace w machineId nodeName ccv) hup hb
    rw [hv]
    simp [succeed]
  refine ⟨by rw [hblocked.2]; exact fun h => hmut h.symm, by rw [hblocked.1, hsucc], fun e => ?_⟩
  rw [hblocked.1, hsucc]
  simp

/-- Witness of C7, amended: the blocked and the successful run of the first
control plane node of the example. -/
theorem blocked_and_success_return_nil_witness :
    mutations (Apply (exampleWorld true true false) exampleTarget).trace ≠
      mutations (Apply (exampleWorld true true true) exampleTarget).trace ∧
    (Apply (exampleWorld true true false) exampleTarget).err =
      (Apply (exampleWorld true true true) exampleTarget).err ∧
    ∀ e : Error, (Apply (exampleWorld true true false) exampleTarget).err ≠ some e ∧
      (Apply (exampleWorld true true true) exampleTarget).err ≠ some e :=
  blocked_and_success_return_nil (exampleWorld true true false) exampleTarget "abc\n" "node-1" ⟨1, 2, 0⟩
    exampleStatus (exampleWorld true true true) exampleTarget
    ⟨rfl, rfl, rfl, rfl⟩ rfl (Or.inl ⟨rfl, rfl⟩) (by decide) (by decide)

/-- C8: for a node that is not up to date, the run makes a single tolerance
query when the node is first, about the target (update) API server version of
the node, and a single tolerance query when the node is a control plane node
that is not first, about the current cluster version obtained at the start of
the run; in the latter case the target API server version of the node is not
asked about when it differs from the current cluster version. -/
theorem Apply_tolerance_version {Cfg : Type} (w : World Cfg) (target : Target)
    (machineId nodeName : String) (ccv : Version) (nviu : NodeVersionInfoUpdate)
    (hs : StatusKnown w target machineId nodeName ccv nviu)
    (hup : w.IsUpdated nviu = false) :
    (w.IsFirstControlPlaneNodeToBeUpgraded nviu = true →
      toleranceQueries (Apply w target).trace = [nviu.Update.APIServerVersion]) ∧
    (w.IsFirstControlPlaneNodeToBeUpgraded nviu = false →
      w.IsControlPlane nviu.Current = true →
      toleranceQueries (Apply w target).trace = [ccv] ∧
      (ccv ≠ nviu.Update.APIServerVersion →
        nviu.Update.APIServerVersion ∉ toleranceQueries (Apply w target).trace)) := by
  rw [Apply_of_statusKnown hs]
  constructor
  · intro hfirst
    rw [upgradeWithStatus_first _ _ _ _ _ hup hfirst]
    obtain ⟨rest, hr, hq, _⟩ := upgradeFirstControlPlane_extends w
      { target with Nodename := nodeName } nviu (statusTrace w machineId nodeName ccv)
    rw [hr]
    simp [hq]
  · intro hfirst hrole
    obtain ⟨rest, hr, hq, _⟩ := upgradeOtherNode_controlPlane_extends w
      { target with Nodename := nodeName } ccv nviu (statusTrace w machineId nodeName ccv) hrole
    have heq : upgradeWithStatus w { target with Nodename := nodeName } ccv nviu
        (statusTrace w machineId nodeName ccv) =
        upgradeOtherNode w { target with Nodename := nodeName } ccv nviu
          (statusTrace w machineId nodeName ccv) := by
      simp [upgradeWithStatus, hup, hfirst]
    rw [heq, hr]
    refine ⟨by simp [hq], fun hne => ?_⟩
    simp only [toleranceQueries_append, toleranceQueries_statusTrace, toleranceQueries_cons, hq,
      List.nil_append, List.append_nil, List.mem_singleton]
    exact fun h => hne h.symm

/-- Witness of C8: the subsequent control plane node of the example, in a
cluster at 1.2.0, with target API server version 1.3.0. -/
theorem Apply_tolerance_version_witness :
    toleranceQueries (Apply (exampleWorld false true true) exampleTarget).trace = [⟨1, 2, 0⟩] ∧
    (⟨1, 3, 0⟩ : Version) ∉
      toleranceQueries (Apply (exampleWorld false true true) exampleTarget).trace :=
  have h := (Apply_tolerance_version (exampleWorld false true true) exampleTarget "abc\n"
    "node-1" ⟨1, 2, 0⟩ exampleStatus ⟨rfl, rfl, rfl, rfl⟩ rfl).2 rfl rfl
  ⟨h.1, h.2 (by decide)⟩

/-- C9: for a worker node that is not up to date (not a control plane node,
not first), `Apply` makes no tolerance query, its outcome is the same whatever
the tolerance checker would answer (true, false or an error), and when the
mutation steps succeed it returns nil after the four-step worker sequence. -/
theorem Apply_worker {Cfg : Type} (w : World Cfg) (target : Target)
    (machineId nodeName : String) (ccv : Version) (nviu : NodeVersionInfoUpdate)
    (hs : StatusKnown w target machineId nodeName ccv nviu)
    (hup : w.IsUpdated nviu = false)
    (hfirst : w.IsFirstControlPlaneNodeToBeUpgraded nviu = false)
    (hworker : w.IsControlPlane nviu.Current = false) :
    toleranceQueries (Apply w target).trace = [] ∧
    (∀ tolerance : Version → Except Error Bool,
      Apply { w with AllWorkerNodesTolerateVersion := tolerance } target = Apply w target) ∧
    ((∀ j, j < 4 → stepResult w { target with Nodename := nodeName }
        (specNodeSequence nviu) j = none) →
      (Apply w target).err = none ∧
      mutations (Apply w target).trace =
        [⟨Payload.KubernetesBaseOSConfiguration nviu.Update.KubeletVersion.String
            nviu.Current.KubeletVersion.String, "kubernetes.install-base-packages"⟩,
         ⟨Payload.nil, "kubeadm.upgrade.node"⟩,
         ⟨Payload.KubernetesBaseOSConfiguration nviu.Update.KubeletVersion.String
            nviu.Update.KubeletVersion.String, "kubernetes.install-base-packages"⟩,
         ⟨Payload.nil, "kubernetes.restart-services"⟩]) := by
  have heq : Apply w target = upgradeNodeSteps w { target with Nodename := nodeName } nviu true
      (statusTrace w machineId nodeName ccv) := by
    rw [Apply_of_statusKnown hs]
    simp [upgradeWithStatus, hup, hfirst, upgradeOtherNode_worker, hworker]
  refine ⟨?_, ?_, ?_⟩
  · obtain ⟨rest, hr, hq, _⟩ := upgradeNodeSteps_extends w { target with Nodename := nodeName }
      nviu true (statusTrace w machineId nodeName ccv)
    rw [heq, hr]
    simp [hq]
  · intro tolerance
    have hs2 : StatusKnown { w with AllWorkerNodesTolerateVersion := tolerance } target
        machineId nodeName ccv nviu := hs
    rw [heq, Apply_of_statusKnown hs2]
    simp only [upgradeWithStatus, hup, hfirst, upgradeOtherNode, hworker]
    rfl
  · intro hsteps
    rw [heq]
    exact (upgradeNodeSteps_run w _ nviu _ (by simp)).1 hsteps

/-- Witness of C9: a worker with current kubelet 1.2.0 and target kubelet
1.3.0, in a cluster whose tolerance checker would answer false. -/
theorem Apply_worker_witness :
    toleranceQueries (Apply (exampleWorld false false false) exampleTarget).trace = [] ∧
    (Apply (exampleWorld false false false) exampleTarget).err = none ∧
    mutations (Apply (exampleWorld false false false) exampleTarget).trace =
      [⟨Payload.KubernetesBaseOSConfiguration "1.3.0" "1.2.0", "kubernetes.install-base-packages"⟩,
       ⟨Payload.nil, "kubeadm.upgrade.node"⟩,
       ⟨Payload.KubernetesBaseOSConfiguration "1.3.0" "1.3.0", "kubernetes.install-base-packages"⟩,
       ⟨Payload.nil, "kubernetes.restart-services"⟩] :=
  have h := Apply_worker (exampleWorld false false false) exampleTarget "abc\n" "node-1"
    ⟨1, 2, 0⟩ exampleStatus ⟨rfl, rfl, rfl, rfl⟩ rfl rfl rfl
  ⟨h.1, h.2.2 (fun j _ => by simp only [stepResult, exampleWorld]; split <;> rfl)⟩

/-- C10: when a collaborator called before the pipeline (machine id download,
node lookup, current cluster version lookup, `UpdateStatus`, tolerance query,
cluster configuration fetch, init configuration marshal) fails with `e`,
`Apply` returns exactly `e`, the failing call is the last collaborator call of
the run, and no mutation call is issued. -/
theorem Apply_collaborator_error {Cfg : Type} (w : World Cfg) (target : Target) (e : Error)
    (calls : List Event) (h : FailsBeforePipeline w target e calls) :
    (Apply w target).err = some e ∧
    collaboratorCalls (Apply w target).trace = calls ∧
    mutations (Apply w target).trace = [] := by
  cases h with
  | download h1 => simp [Apply, fillTargetWithNodeName, h1]
  | lookup machineId h1 h2 => simp [Apply, fillTargetWithNodeName, h1, h2]
  | version machineId nodeName h1 h2 h3 => simp [Apply, fillTargetWithNodeName, h1, h2, h3]
  | status machineId nodeName ccv h1 h2 h3 h4 =>
    simp [Apply, fillTargetWithNodeName, h1, h2, h3, h4]
  | toleranceFirst machineId nodeName ccv nviu hs hup hfirst htol =>
    rw [Apply_of_statusKnown hs]
    simp [upgradeWithStatus, hup, hfirst, upgradeFirstControlPlane, htol, statusTrace]
  | toleranceOther machineId nodeName ccv nviu hs hup hfirst hrole htol =>
    rw [Apply_of_statusKnown hs]
    simp [upgradeWithStatus, hup, hfirst, upgradeOtherNode, hrole, htol, statusTrace]
  | fetch machineId nodeName ccv nviu hs hup hfirst htol hcfg =>
    rw [Apply_of_statusKnown hs]
    simp [upgradeWithStatus, hup, hfirst, upgradeFirstControlPlane, htol, hcfg, statusTrace]
  | marshal machineId nodeName ccv nviu initCfg hs hup hfirst htol hcfg hmar =>
    rw [Apply_of_statusKnown hs]
    simp [upgradeWithStatus, hup, hfirst, upgradeFirstControlPlane, htol, hcfg, hmar,
      statusTrace]

/-- Witness of C10: a marshal failure on the path of the first control plane
node. -/
theorem Apply_collaborator_error_witness :
    (Apply marshalFails exampleTarget).err = some "encoding failed" ∧
    collaboratorCalls (Apply marshalFails exampleTarget).trace =
      [Event.DownloadFileContents "/etc/machine-id",
       Event.GetNodeWithMachineId (TrimSuffix "abc\n" "\n"),
       Event.GetCurrentClusterVersion,
       Event.UpdateStatus "node-1",
       Event.AllWorkerNodesTolerateVersion ⟨1, 3, 0⟩,
       Event.GetClusterConfiguration,
       Event.MarshalInitConfigurationToBytes ⟨"kubeadm.k8s.io", "v1beta2"⟩] ∧
    mutations (Apply marshalFails exampleTarget).trace = [] :=
  Apply_collaborator_error marshalFails exampleTarget "encoding failed" _
    (FailsBeforePipeline.marshal "abc\n" "node-1" ⟨1, 2, 0⟩ exampleStatus "cfg"
      ⟨rfl, rfl, rfl, rfl⟩ rfl rfl rfl rfl rfl)

end Skuba
